import Mathlib

/-!
Verification of the ABC/VEN analyzer (`src/analyzer.ts`) against its
natural-language specification.

Modelling conventions:

* JavaScript numbers are idealized as exact rationals (`ℚ`) extended with the
  three non-finite IEEE-754 values `NaN`, `+Infinity`, `-Infinity` (type
  `JsNum` below).  Finite-precision rounding is idealized away, so every
  "within floating-point tolerance" statement of the specification becomes an
  exact equality.  The non-finite values are modelled faithfully because the
  analyzer divides without a zero-denominator guard in `analyzeABC`,
  `getABCSummary`, `getVENSummary` and `getABCVENMatrix`: JavaScript yields
  `NaN` for `0/0` and `±Infinity` for `x/0` (`x ≠ 0`), every comparison with
  `NaN` is `false`, and `NaN` is absorbing for `+`.
* Input `amount`/`quantity` fields are modelled as finite rationals: the
  specification declares non-finite numeric fields caller misuse that is out
  of scope, and the CSV parser only produces finite numbers.
* `[...items].sort((a, b) => b.amount - a.amount)` is the ECMAScript stable
  sort under a consistent comparator, i.e. the unique permutation that is both
  non-increasing in `amount` and stable.  It is modelled by Mathlib's
  `List.insertionSort` with the relation `b.amount ≤ a.amount`, which is
  provably sorted and stable, hence extensionally identical.
* Mutation does not exist in the embedding; the source never mutates its
  input (`analyzeABC` copies the array before sorting), so the pure functions
  below are faithful.
-/

namespace ABCVEN

/-- VEN criticality tag, `type VENCategory = 'V' | 'E' | 'N'` of `types.ts`. -/
inductive VENCategory where
  | V
  | E
  | N
deriving DecidableEq

/-- ABC tier, `type ABCCategory = 'A' | 'B' | 'C'` of `types.ts`. -/
inductive ABCCategory where
  | A
  | B
  | C
deriving DecidableEq

/-- JavaScript number, idealized: finite values are exact rationals; the
non-finite IEEE-754 values `NaN` and `±Infinity` are explicit constructors. -/
inductive JsNum where
  | fin (q : ℚ)
  | posInf
  | negInf
  | nan
deriving DecidableEq

/-- JavaScript `+` on `JsNum`: `NaN` is absorbing and `Infinity + -Infinity`
is `NaN`; on finite values it is exact rational addition. -/
def jsadd : JsNum → JsNum → JsNum
  | .nan, _ => .nan
  | .fin _, .nan => .nan
  | .posInf, .nan => .nan
  | .negInf, .nan => .nan
  | .fin a, .fin b => .fin (a + b)
  | .fin _, .posInf => .posInf
  | .fin _, .negInf => .negInf
  | .posInf, .fin _ => .posInf
  | .posInf, .posInf => .posInf
  | .posInf, .negInf => .nan
  | .negInf, .fin _ => .negInf
  | .negInf, .negInf => .negInf
  | .negInf, .posInf => .nan

/-- JavaScript multiplication by the positive literal `100`, as used in the
percentage computations `(x / total) * 100`. -/
def jsmul100 : JsNum → JsNum
  | .fin a => .fin (a * 100)
  | .posInf => .posInf
  | .negInf => .negInf
  | .nan => .nan

/-- JavaScript division of two finite numbers (the analyzer only ever divides
finite numerators by finite denominators): division by (positive) zero yields
`±Infinity` by the numerator's sign and `NaN` for `0 / 0`. -/
def jsdivFin (a t : ℚ) : JsNum :=
  if t = 0 then
    if 0 < a then .posInf else if a < 0 then .negInf else .nan
  else .fin (a / t)

/-- JavaScript `<` on `JsNum`: every comparison involving `NaN` is `false`. -/
def jslt : JsNum → JsNum → Bool
  | .nan, _ => false
  | .fin _, .nan => false
  | .posInf, .nan => false
  | .negInf, .nan => false
  | .fin a, .fin b => decide (a < b)
  | .fin _, .posInf => true
  | .fin _, .negInf => false
  | .posInf, .fin _ => false
  | .posInf, .posInf => false
  | .posInf, .negInf => false
  | .negInf, .fin _ => true
  | .negInf, .posInf => true
  | .negInf, .negInf => false

/-- JavaScript `<=` on `JsNum`: every comparison involving `NaN` is `false`. -/
def jsle : JsNum → JsNum → Bool
  | .nan, _ => false
  | .fin _, .nan => false
  | .posInf, .nan => false
  | .negInf, .nan => false
  | .fin a, .fin b => decide (a ≤ b)
  | .fin _, .posInf => true
  | .fin _, .negInf => false
  | .posInf, .fin _ => false
  | .posInf, .posInf => true
  | .posInf, .negInf => false
  | .negInf, .fin _ => true
  | .negInf, .posInf => true
  | .negInf, .negInf => true

/-- JavaScript `>=` on `JsNum`. -/
def jsge (a b : JsNum) : Bool := jsle b a

/-- JavaScript summation of a list of numbers starting from `0`
(`reduce((sum, x) => sum + x, 0)` shape). -/
def jsSum (l : List JsNum) : JsNum := l.foldl jsadd (.fin 0)

/-- Predicate: the value is a finite number (not `NaN`, not `±Infinity`). -/
def isFinite : JsNum → Bool
  | .fin _ => true
  | _ => false

/-- The rational carried by a finite `JsNum` (and `0` on non-finite values). -/
def finPart : JsNum → ℚ
  | .fin q => q
  | _ => 0

/-- Input record, `interface DrugItem` of `types.ts`. -/
structure DrugItem where
  code : ℤ
  name : String
  unit : String
  quantity : ℚ
  amount : ℚ
  ven : VENCategory
deriving DecidableEq

/-- Output record of the classifier, `interface AnalyzedItem` of `types.ts`:
a `DrugItem` extended with the three computed fields. -/
structure AnalyzedItem extends DrugItem where
  percentOfTotal : JsNum
  cumulativePercent : JsNum
  abc : ABCCategory
deriving DecidableEq

/-- The sort relation of `analyzeABC`: the comparator
`(a, b) => b.amount - a.amount` orders by amount descending. -/
def sortLE (a b : DrugItem) : Prop := b.amount ≤ a.amount

instance : DecidableRel sortLE := fun a b =>
  inferInstanceAs (Decidable (b.amount ≤ a.amount))

instance : IsTotal DrugItem sortLE := ⟨fun a b => le_total b.amount a.amount⟩

instance : IsTrans DrugItem sortLE := ⟨fun _ _ _ h1 h2 => le_trans h2 h1⟩

/-- The total of the `amount` fields of a list of input items, as the code
computes it (`reduce((sum, item) => sum + item.amount, 0)`). -/
def drugTotal (items : List DrugItem) : ℚ :=
  items.foldl (fun s x => s + x.amount) 0

/-- The total of the `amount` fields of a list of analyzed items. -/
def anaTotal (items : List AnalyzedItem) : ℚ :=
  items.foldl (fun s x => s + x.amount) 0

/-- The body of the `sorted.map` closure in `analyzeABC`, with the mutable
accumulator `cumulativePercent` made explicit: classify on the cumulative
percentage BEFORE the current item, then add the item's own share. -/
def analyzeABCGo (totalAmount : ℚ) : JsNum → List DrugItem → List AnalyzedItem
  | _, [] => []
  | cum, item :: rest =>
    let percentOfTotal := jsmul100 (jsdivFin item.amount totalAmount)
    let abc : ABCCategory :=
      if jslt cum (.fin 80) then .A
      else if jslt cum (.fin 95) then .B
      else .C
    let cum2 := jsadd cum percentOfTotal
    { toDrugItem := item
      percentOfTotal := percentOfTotal
      cumulativePercent := cum2
      abc := abc } :: analyzeABCGo totalAmount cum2 rest

/-- `analyzeABC` of `analyzer.ts`: stable-sort by amount descending, total the
amounts, then walk the sorted list assigning shares and tiers. -/
def analyzeABC (items : List DrugItem) : List AnalyzedItem :=
  let sorted := List.insertionSort sortLE items
  let totalAmount := drugTotal sorted
  analyzeABCGo totalAmount (.fin 0) sorted

/-- The sublist of items in ABC tier `c`, in input order (the contents of
`groups[c]` / `abcGroups[c]` accumulated by the aggregation loops). -/
def abcFilter (items : List AnalyzedItem) (c : ABCCategory) : List AnalyzedItem :=
  items.filter (fun x => decide (x.abc = c))

/-- The sublist of items with VEN tag `v`, in input order. -/
def venFilter (items : List AnalyzedItem) (v : VENCategory) : List AnalyzedItem :=
  items.filter (fun x => decide (x.ven = v))

/-- The sublist of items in ABC tier `c` with VEN tag `v`, in input order. -/
def cellFilter (items : List AnalyzedItem) (c : ABCCategory) (v : VENCategory) :
    List AnalyzedItem :=
  items.filter (fun x => decide (x.abc = c) && decide (x.ven = v))

/-- One row of `getABCSummary`, `interface ABCSummary` of `types.ts`. -/
structure ABCSummaryRow where
  category : ABCCategory
  count : ℕ
  amount : ℚ
  percentCount : JsNum
  percentAmount : JsNum
deriving DecidableEq

/-- One row of `getVENSummary`, `interface VENSummary` of `types.ts`. -/
structure VENSummaryRow where
  category : VENCategory
  count : ℕ
  amount : ℚ
  percentCount : JsNum
  percentAmount : JsNum
deriving DecidableEq

/-- One cell of the matrix / conditional distribution, `CategoryStats` of
`types.ts`. -/
structure CategoryStats where
  count : ℕ
  amount : ℚ
  percentCount : JsNum
  percentAmount : JsNum
deriving DecidableEq

/-- `getABCSummary` of `analyzer.ts`: per-tier count, amount and percentages
relative to the grand totals, returned in the fixed order A, B, C. -/
def getABCSummary (items : List AnalyzedItem) : List ABCSummaryRow :=
  let totalAmount := anaTotal items
  let totalCount := items.length
  [ABCCategory.A, ABCCategory.B, ABCCategory.C].map (fun c =>
    { category := c
      count := (abcFilter items c).length
      amount := anaTotal (abcFilter items c)
      percentCount :=
        jsmul100 (jsdivFin ((abcFilter items c).length : ℚ) (totalCount : ℚ))
      percentAmount :=
        jsmul100 (jsdivFin (anaTotal (abcFilter items c)) totalAmount) })

/-- `getVENSummary` of `analyzer.ts`: per-criticality count, amount and
percentages relative to the grand totals, in the fixed order V, E, N. -/
def getVENSummary (items : List AnalyzedItem) : List VENSummaryRow :=
  let totalAmount := anaTotal items
  let totalCount := items.length
  [VENCategory.V, VENCategory.E, VENCategory.N].map (fun v =>
    { category := v
      count := (venFilter items v).length
      amount := anaTotal (venFilter items v)
      percentCount :=
        jsmul100 (jsdivFin ((venFilter items v).length : ℚ) (totalCount : ℚ))
      percentAmount :=
        jsmul100 (jsdivFin (anaTotal (venFilter items v)) totalAmount) })

/-- `getABCVENMatrix` of `analyzer.ts`: all 9 (tier, criticality) cells always
exist (the code zero-initializes every key), with percentages relative to the
grand total count/amount. -/
def getABCVENMatrix (items : List AnalyzedItem) (c : ABCCategory)
    (v : VENCategory) : CategoryStats :=
  { count := (cellFilter items c v).length
    amount := anaTotal (cellFilter items c v)
    percentCount :=
      jsmul100 (jsdivFin ((cellFilter items c v).length : ℚ) (items.length : ℚ))
    percentAmount :=
      jsmul100 (jsdivFin (anaTotal (cellFilter items c v)) (anaTotal items)) }

/-- `getVENDistributionByABC` of `analyzer.ts`: percentages are relative to
the tier's own subtotal, with explicit guards `groupCount > 0` for
`percentCount` and `groupAmount > 0` for `percentAmount` (otherwise `0`). -/
def getVENDistributionByABC (items : List AnalyzedItem) (c : ABCCategory)
    (v : VENCategory) : CategoryStats :=
  let group := abcFilter items c
  let groupCount := group.length
  let groupAmount := anaTotal group
  let cell := venFilter group v
  { count := cell.length
    amount := anaTotal cell
    percentCount :=
      if 0 < groupCount then
        jsmul100 (jsdivFin (cell.length : ℚ) (groupCount : ℚ))
      else .fin 0
    percentAmount :=
      if 0 < groupAmount then
        jsmul100 (jsdivFin (anaTotal cell) groupAmount)
      else .fin 0 }

/-- Per-item share of the total `t`, in exact rational arithmetic
(`amount / total * 100`), meaningful when `t ≠ 0`. -/
def pct (t : ℚ) (x : DrugItem) : ℚ := x.amount / t * 100

/-- Reference form of the classifier loop in exact rational arithmetic; it
coincides with `analyzeABCGo` whenever the total is nonzero (no non-finite
value can then arise). -/
def specGo (t : ℚ) : ℚ → List DrugItem → List AnalyzedItem
  | _, [] => []
  | c, x :: rest =>
    { toDrugItem := x
      percentOfTotal := .fin (pct t x)
      cumulativePercent := .fin (c + pct t x)
      abc := if c < 80 then .A else if c < 95 then .B else .C }
      :: specGo t (c + pct t x) rest

/-- Running prefix sums of a list of rationals, starting after `c`. -/
def partialSums : ℚ → List ℚ → List ℚ
  | _, [] => []
  | c, q :: qs => (c + q) :: partialSums (c + q) qs

/-- Concrete input item used by witnesses and counterexamples. -/
def mkItem (c : ℤ) (a : ℚ) (v : VENCategory) : DrugItem :=
  { code := c, name := "", unit := "", quantity := 0, amount := a, ven := v }

/-- Concrete analyzed item used by witnesses and counterexamples for the
aggregation functions (which accept any list of classified items). -/
def mkAna (c : ℤ) (a : ℚ) (t : ABCCategory) (v : VENCategory) : AnalyzedItem :=
  { toDrugItem := mkItem c a v
    percentOfTotal := .fin 0
    cumulativePercent := .fin 0
    abc := t }

/-- The 9 (tier, criticality) keys of the matrix, in the code's iteration
order. -/
def allCells : List (ABCCategory × VENCategory) :=
  [(.A, .V), (.A, .E), (.A, .N),
   (.B, .V), (.B, .E), (.B, .N),
   (.C, .V), (.C, .E), (.C, .N)]

/-! Helper lemmas: totals as mapped sums, `JsNum` folds, category partitions. -/

lemma drugTotal_foldl (l : List DrugItem) (s : ℚ) :
    l.foldl (fun s x => s + x.amount) s = s + (l.map (fun x => x.amount)).sum := by
  induction l generalizing s with
  | nil => simp
  | cons x xs ih => simp [List.foldl_cons, ih, add_assoc]

lemma anaTotal_foldl (l : List AnalyzedItem) (s : ℚ) :
    l.foldl (fun s x => s + x.amount) s = s + (l.map (fun x => x.amount)).sum := by
  induction l generalizing s with
  | nil => simp
  | cons x xs ih => simp [List.foldl_cons, ih, add_assoc]

lemma drugTotal_eq_sum (l : List DrugItem) :
    drugTotal l = (l.map (fun x => x.amount)).sum := by
  simp [drugTotal, drugTotal_foldl]

lemma anaTotal_eq_sum (l : List AnalyzedItem) :
    anaTotal l = (l.map (fun x => x.amount)).sum := by
  simp [anaTotal, anaTotal_foldl]

lemma anaTotal_nil : anaTotal [] = 0 := rfl

lemma anaTotal_cons (x : AnalyzedItem) (l : List AnalyzedItem) :
    anaTotal (x :: l) = x.amount + anaTotal l := by
  simp [anaTotal_eq_sum]

lemma foldl_jsadd_fin (qs : List ℚ) (c : ℚ) :
    (qs.map JsNum.fin).foldl jsadd (.fin c) = .fin (c + qs.sum) := by
  induction qs generalizing c with
  | nil => simp
  | cons q qs ih => simp [jsadd, ih, add_assoc]

lemma jsSum_map_fin (qs : List ℚ) : jsSum (qs.map JsNum.fin) = .fin qs.sum := by
  simpa [jsSum] using foldl_jsadd_fin qs 0

lemma ven_partition_length (l : List AnalyzedItem) :
    (venFilter l .V).length + (venFilter l .E).length + (venFilter l .N).length
      = l.length := by
  induction l with
  | nil => simp [venFilter]
  | cons x xs ih =>
    cases hv : x.ven <;>
      simp only [venFilter, List.filter_cons, hv] at ih ⊢ <;>
      simp <;> omega

lemma ven_partition_amount (l : List AnalyzedItem) :
    anaTotal (venFilter l .V) + anaTotal (venFilter l .E)
      + anaTotal (venFilter l .N) = anaTotal l := by
  induction l with
  | nil => simp [venFilter, anaTotal_nil]
  | cons x xs ih =>
    cases hv : x.ven <;>
      simp only [venFilter, List.filter_cons, hv] at ih ⊢ <;>
      simp [anaTotal_cons] <;> linarith

lemma abc_partition_length (l : List AnalyzedItem) :
    (abcFilter l .A).length + (abcFilter l .B).length + (abcFilter l .C).length
      = l.length := by
  induction l with
  | nil => simp [abcFilter]
  | cons x xs ih =>
    cases hv : x.abc <;>
      simp only [abcFilter, List.filter_cons, hv] at ih ⊢ <;>
      simp <;> omega

lemma abc_partition_amount (l : List AnalyzedItem) :
    anaTotal (abcFilter l .A) + anaTotal (abcFilter l .B)
      + anaTotal (abcFilter l .C) = anaTotal l := by
  induction l with
  | nil => simp [abcFilter, anaTotal_nil]
  | cons x xs ih =>
    cases hv : x.abc <;>
      simp only [abcFilter, List.filter_cons, hv] at ih ⊢ <;>
      simp [anaTotal_cons] <;> linarith

lemma cellFilter_eq (l : List AnalyzedItem) (c : ABCCategory) (v : VENCategory) :
    cellFilter l c v = venFilter (abcFilter l c) v := by
  simp [cellFilter, venFilter, abcFilter, List.filter_filter, Bool.and_comm]

/-! Classifier traversal lemmas and claim theorems. -/

lemma analyzeABCGo_eq_specGo (t : ℚ) (ht : t ≠ 0) (l : List DrugItem) (c : ℚ) :
    analyzeABCGo t (.fin c) l = specGo t c l := by
  induction l generalizing c with
  | nil => rfl
  | cons x xs ih =>
    simp only [analyzeABCGo, specGo, jsdivFin, if_neg ht, jsmul100, jslt, jsadd,
      decide_eq_true_eq, pct, ih]

lemma specGo_length (t c : ℚ) (l : List DrugItem) :
    (specGo t c l).length = l.length := by
  induction l generalizing c with
  | nil => rfl
  | cons x xs ih => simp [specGo, ih]

lemma analyzeABCGo_map_toDrug (t : ℚ) (cum : JsNum) (l : List DrugItem) :
    (analyzeABCGo t cum l).map (fun x => x.toDrugItem) = l := by
  induction l generalizing cum with
  | nil => rfl
  | cons x xs ih => simp [analyzeABCGo, ih]

lemma specGo_map_percent (t c : ℚ) (l : List DrugItem) :
    (specGo t c l).map (fun x => x.percentOfTotal)
      = l.map (fun x => JsNum.fin (pct t x)) := by
  induction l generalizing c with
  | nil => rfl
  | cons x xs ih => simp [specGo, ih]

lemma specGo_map_cum (t c : ℚ) (l : List DrugItem) :
    (specGo t c l).map (fun x => x.cumulativePercent)
      = (partialSums c (l.map (pct t))).map JsNum.fin := by
  induction l generalizing c with
  | nil => rfl
  | cons x xs ih => simp [specGo, partialSums, ih]

lemma specGo_get (t : ℚ) (l : List DrugItem) (c : ℚ) (k : ℕ) (hk : k < l.length)
    (hk2 : k < (specGo t c l).length) :
    (specGo t c l).get ⟨k, hk2⟩ =
      { toDrugItem := l.get ⟨k, hk⟩
        percentOfTotal := .fin (pct t (l.get ⟨k, hk⟩))
        cumulativePercent :=
          .fin ((c + ((l.take k).map (pct t)).sum) + pct t (l.get ⟨k, hk⟩))
        abc :=
          if c + ((l.take k).map (pct t)).sum < 80 then .A
          else if c + ((l.take k).map (pct t)).sum < 95 then .B
          else .C } := by
  induction l generalizing c k with
  | nil => cases hk
  | cons x xs ih =>
    cases k with
    | zero => simp [specGo]
    | succ k =>
      have hk' : k < xs.length := Nat.lt_of_succ_lt_succ hk
      have hk2' : k < (specGo t (c + pct t x) xs).length := by
        rw [specGo_length]; exact hk'
      simp only [specGo, List.get_cons_succ]
      rw [ih (c + pct t x) k hk' hk2']
      simp [List.take_succ_cons, add_assoc]

lemma partialSums_getLast (c : ℚ) (qs : List ℚ) (h : qs ≠ []) :
    (partialSums c qs).getLast? = some (c + qs.sum) := by
  induction qs generalizing c with
  | nil => cases h rfl
  | cons q qs ih =>
    cases qs with
    | nil => simp [partialSums]
    | cons q2 qs2 =>
      have h2 := ih (c + q) (by simp)
      rw [partialSums] at h2
      rw [partialSums, partialSums, List.getLast?_cons_cons, h2]
      simp [add_assoc]

lemma partialSums_chain (c : ℚ) (qs : List ℚ) (h : ∀ q ∈ qs, 0 ≤ q) :
    List.Chain' (fun a b : ℚ => a ≤ b) (partialSums c qs) := by
  induction qs generalizing c with
  | nil => simp [partialSums]
  | cons q qs ih =>
    rw [partialSums]
    apply List.Chain'.cons'
    · exact ih (c + q) (fun x hx => h x (List.mem_cons_of_mem _ hx))
    · intro y hy
      cases qs with
      | nil => simp [partialSums] at hy
      | cons q2 qs2 =>
        simp only [partialSums, List.head?_cons, Option.mem_def,
          Option.some.injEq] at hy
        have h2 : 0 ≤ q2 := h q2 (by simp)
        rw [← hy]
        linarith

lemma sum_map_mul_const (as : List ℚ) (r : ℚ) :
    (as.map (fun a => a * r)).sum = as.sum * r := by
  induction as with
  | nil => simp
  | cons a as ih => simp [ih, add_mul]

lemma sum_pct (t : ℚ) (ht : t ≠ 0) (l : List DrugItem)
    (h : (l.map (fun x => x.amount)).sum = t) : (l.map (pct t)).sum = 100 := by
  have h1 : l.map (pct t) = (l.map (fun x => x.amount)).map (fun a => a * (100 / t)) := by
    rw [List.map_map]
    apply List.map_congr_left
    intro x _
    simp only [Function.comp, pct]
    field_simp
  rw [h1, sum_map_mul_const, h]
  field_simp

lemma drugTotal_insertionSort (items : List DrugItem) :
    drugTotal (List.insertionSort sortLE items) = drugTotal items := by
  rw [drugTotal_eq_sum, drugTotal_eq_sum]
  exact List.Perm.sum_eq (List.Perm.map _ (List.perm_insertionSort sortLE items))

lemma tier_if_iff (S : ℚ) :
    (((if S < 80 then ABCCategory.A else if S < 95 then .B else .C) = .A) ↔ S < 80)
    ∧ (((if S < 80 then ABCCategory.A else if S < 95 then .B else .C) = .B)
        ↔ (80 ≤ S ∧ S < 95))
    ∧ (((if S < 80 then ABCCategory.A else if S < 95 then .B else .C) = .C)
        ↔ 95 ≤ S) := by
  by_cases h1 : S < 80 <;> by_cases h2 : S < 95 <;>
    simp [h1, h2] <;> try linarith

lemma analyzeABC_eq_specGo (items : List DrugItem) (ht : drugTotal items ≠ 0) :
    analyzeABC items
      = specGo (drugTotal items) 0 (List.insertionSort sortLE items) := by
  rw [analyzeABC]
  rw [drugTotal_insertionSort]
  exact analyzeABCGo_eq_specGo _ ht _ 0

lemma cumBefore_eq (items : List DrugItem) (ht : drugTotal items ≠ 0) (k : ℕ) :
    (((analyzeABC items).take k).map (fun x => finPart x.percentOfTotal)).sum
      = (((List.insertionSort sortLE items).take k).map (pct (drugTotal items))).sum := by
  rw [analyzeABC_eq_specGo items ht, List.map_take, List.map_take]
  congr 1
  rw [show (fun x : AnalyzedItem => finPart x.percentOfTotal)
      = finPart ∘ (fun x : AnalyzedItem => x.percentOfTotal) from rfl,
    ← List.map_map, specGo_map_percent, List.map_map]
  congr 1

/-- Claim C1 (amended): for every input sequence whose total amount is
nonzero, an output item of `analyzeABC` is tier A iff the sum of
`percentOfTotal` over strictly preceding output items is `< 80`, tier B iff
that sum is in `[80, 95)`, tier C iff it is `≥ 95`, and its stored
`cumulativePercent` equals that sum plus its own `percentOfTotal`.  (The
nonzero-total hypothesis is forced: with total `0` the shares are `NaN`, the
code then assigns tier C, and `NaN ≥ 95` is false in JavaScript, see the
counterexample.) -/
theorem c1_threshold_partition (items : List DrugItem) (ht : drugTotal items ≠ 0)
    (k : ℕ) (hk : k < (analyzeABC items).length) :
    (((analyzeABC items).get ⟨k, hk⟩).abc = .A ↔
      (((analyzeABC items).take k).map (fun x => finPart x.percentOfTotal)).sum < 80)
    ∧ (((analyzeABC items).get ⟨k, hk⟩).abc = .B ↔
      (80 ≤ (((analyzeABC items).take k).map (fun x => finPart x.percentOfTotal)).sum
        ∧ (((analyzeABC items).take k).map (fun x => finPart x.percentOfTotal)).sum < 95))
    ∧ (((analyzeABC items).get ⟨k, hk⟩).abc = .C ↔
      95 ≤ (((analyzeABC items).take k).map (fun x => finPart x.percentOfTotal)).sum)
    ∧ ((analyzeABC items).get ⟨k, hk⟩).cumulativePercent =
      .fin ((((analyzeABC items).take k).map (fun x => finPart x.percentOfTotal)).sum
        + finPart ((analyzeABC items).get ⟨k, hk⟩).percentOfTotal) := by
  have heq := analyzeABC_eq_specGo items ht
  have hk2 : k < (List.insertionSort sortLE items).length := by
    have h1 : (analyzeABC items).length = (List.insertionSort sortLE items).length := by
      rw [heq, specGo_length]
    rw [h1] at hk
    exact hk
  have hget := List.get_of_eq heq ⟨k, hk⟩
  rw [cumBefore_eq items ht k, hget,
    specGo_get (drugTotal items) (List.insertionSort sortLE items) 0 k hk2]
  simp only [zero_add]
  refine ⟨(tier_if_iff _).1, (tier_if_iff _).2.1, (tier_if_iff _).2.2, ?_⟩
  simp [finPart]

/-- Witness for C1: on amounts `[50, 30, 20]` the hypotheses hold and the
item at index 2 (preceding cumulative 80) is tier B. -/
theorem c1_threshold_partition_witness :
    drugTotal [mkItem 1 50 .V, mkItem 2 30 .E, mkItem 3 20 .N] ≠ 0
    ∧ (((analyzeABC [mkItem 1 50 .V, mkItem 2 30 .E, mkItem 3 20 .N]).get
        ⟨2, by with_unfolding_all decide⟩).abc = .B ↔
      (80 ≤ (((analyzeABC [mkItem 1 50 .V, mkItem 2 30 .E, mkItem 3 20 .N]).take 2).map
          (fun x => finPart x.percentOfTotal)).sum
        ∧ (((analyzeABC [mkItem 1 50 .V, mkItem 2 30 .E, mkItem 3 20 .N]).take 2).map
          (fun x => finPart x.percentOfTotal)).sum < 95)) :=
  ⟨by with_unfolding_all decide,
   (c1_threshold_partition [mkItem 1 50 .V, mkItem 2 30 .E, mkItem 3 20 .N]
     (by with_unfolding_all decide) 2 (by with_unfolding_all decide)).2.1⟩

/-- Counterexample to C1 as stated: on two zero-amount items the second
output item is assigned tier C, yet its cumulative-before value (the JS sum
of preceding `percentOfTotal`, which is `NaN`) satisfies neither
`cumulativeBefore >= 95` nor `cumulativeBefore < 95` under JavaScript
comparisons, so "tier C iff cumulativeBefore >= 95" fails. -/
theorem c1_counterexample_zero_total :
    ((analyzeABC [mkItem 1 0 .V, mkItem 2 0 .V])[1]?.map (fun x => x.abc))
        = some ABCCategory.C
    ∧ jsge (jsSum (((analyzeABC [mkItem 1 0 .V, mkItem 2 0 .V]).take 1).map
        (fun x => x.percentOfTotal))) (.fin 95) = false
    ∧ jslt (jsSum (((analyzeABC [mkItem 1 0 .V, mkItem 2 0 .V]).take 1).map
        (fun x => x.percentOfTotal))) (.fin 95) = false := by
  refine ⟨?_, ?_, ?_⟩ <;> with_unfolding_all decide

/-- Claim C3 (amended): for every non-empty input with nonnegative amounts
and positive total, the `cumulativePercent` sequence of `analyzeABC` is
non-decreasing (under the JavaScript `<=`) and the last item's
`cumulativePercent` is exactly `100`.  (Nonnegativity is forced: a negative
amount makes the sequence decrease, see the counterexample.) -/
theorem c3_cumulative_monotone (items : List DrugItem) (hne : items ≠ [])
    (hnn : ∀ x ∈ items, 0 ≤ x.amount) (hpos : 0 < drugTotal items) :
    List.Chain' (fun a b => jsle a b = true)
      ((analyzeABC items).map (fun x => x.cumulativePercent))
    ∧ ((analyzeABC items).map (fun x => x.cumulativePercent)).getLast?
        = some (.fin 100) := by
  have ht : drugTotal items ≠ 0 := ne_of_gt hpos
  rw [analyzeABC_eq_specGo items ht, specGo_map_cum]
  have hsorted_ne : (List.insertionSort sortLE items).map (pct (drugTotal items)) ≠ [] := by
    intro h
    apply hne
    have hl : ((List.insertionSort sortLE items).map (pct (drugTotal items))).length
        = items.length := by
      simp [List.length_insertionSort]
    rw [h] at hl
    exact List.length_eq_zero.1 hl.symm
  have hnn2 : ∀ q ∈ (List.insertionSort sortLE items).map (pct (drugTotal items)), 0 ≤ q := by
    intro q hq
    obtain ⟨x, hx, rfl⟩ := List.mem_map.1 hq
    have hx2 : x ∈ items := (List.mem_insertionSort sortLE).1 hx
    have := hnn x hx2
    unfold pct
    positivity
  constructor
  · rw [List.chain'_map]
    have h1 := partialSums_chain 0 _ hnn2
    refine h1.imp ?_
    intro a b hab
    simp [jsle, hab]
  · rw [List.getLast?_map, partialSums_getLast 0 _ hsorted_ne]
    have hsum : ((List.insertionSort sortLE items).map (pct (drugTotal items))).sum = 100 := by
      apply sum_pct _ ht
      rw [← drugTotal_eq_sum, drugTotal_insertionSort]
    rw [hsum]
    simp

/-- Witness for C3: on amounts `[50, 30, 20]` the total is positive and the
last cumulative share is `100`. -/
theorem c3_cumulative_monotone_witness :
    ((0:ℚ) < drugTotal [mkItem 1 50 .V, mkItem 2 30 .E, mkItem 3 20 .N])
    ∧ ((analyzeABC [mkItem 1 50 .V, mkItem 2 30 .E, mkItem 3 20 .N]).map
        (fun x => x.cumulativePercent)).getLast? = some (.fin 100) :=
  ⟨by with_unfolding_all decide,
   (c3_cumulative_monotone [mkItem 1 50 .V, mkItem 2 30 .E, mkItem 3 20 .N]
     (by with_unfolding_all decide) (by with_unfolding_all decide)
     (by with_unfolding_all decide)).2⟩

/-- Counterexample to C3 as stated: on amounts `[5, -1]` (non-empty input)
the cumulative shares are `[125, 100]`, which is not non-decreasing. -/
theorem c3_counterexample_negative_amount :
    (analyzeABC [mkItem 1 5 .V, mkItem 2 (-1) .V]).map (fun x => x.cumulativePercent)
        = [.fin 125, .fin 100]
    ∧ ¬ List.Chain' (fun a b => jsle a b = true)
        ((analyzeABC [mkItem 1 5 .V, mkItem 2 (-1) .V]).map
          (fun x => x.cumulativePercent)) := by
  have he : (analyzeABC [mkItem 1 5 .V, mkItem 2 (-1) .V]).map
      (fun x => x.cumulativePercent) = [.fin 125, .fin 100] := by
    with_unfolding_all decide
  refine ⟨he, ?_⟩
  intro h
  rw [he] at h
  exact absurd (List.chain'_cons.mp h).1 (by with_unfolding_all decide)

lemma analyzeABC_map_toDrug (items : List DrugItem) :
    (analyzeABC items).map (fun x => x.toDrugItem)
      = List.insertionSort sortLE items := by
  rw [analyzeABC]
  exact analyzeABCGo_map_toDrug _ _ _

lemma filter_amount_pairwise (items : List DrugItem) (q : ℚ) :
    (items.filter (fun x => decide (x.amount = q))).Pairwise sortLE := by
  have hmem : ∀ x ∈ items.filter (fun x => decide (x.amount = q)), x.amount = q := by
    intro x hx
    simpa using (List.mem_filter.1 hx).2
  apply List.pairwise_of_forall_mem_list
  intro a ha b hb
  unfold sortLE
  rw [hmem a ha, hmem b hb]

/-- Claim C4: the output of `analyzeABC` is sorted by amount in
non-increasing order; the underlying items are a permutation of the input
with every original field intact (the call operates on a copy, never the
input); and the sort is stable: for each amount value, the output items with
that amount are exactly the input items with that amount in input order. -/
theorem c4_sorted_stable_pure (items : List DrugItem) :
    List.Pairwise (fun a b : AnalyzedItem => b.amount ≤ a.amount) (analyzeABC items)
    ∧ ((analyzeABC items).map (fun x => x.toDrugItem)).Perm items
    ∧ ∀ q : ℚ,
        ((analyzeABC items).map (fun x => x.toDrugItem)).filter
            (fun x => decide (x.amount = q))
          = items.filter (fun x => decide (x.amount = q)) := by
  refine ⟨?_, ?_, ?_⟩
  · have hs : List.Pairwise sortLE ((analyzeABC items).map (fun x => x.toDrugItem)) := by
      rw [analyzeABC_map_toDrug]
      exact List.sorted_insertionSort sortLE items
    rw [List.pairwise_map] at hs
    exact hs
  · rw [analyzeABC_map_toDrug]
    exact List.perm_insertionSort sortLE items
  · intro q
    rw [analyzeABC_map_toDrug]
    have h1 : List.Sublist (items.filter (fun x => decide (x.amount = q)))
        (List.insertionSort sortLE items) :=
      List.sublist_insertionSort (filter_amount_pairwise items q)
        (List.filter_sublist items)
    have h2 : List.Sublist (items.filter (fun x => decide (x.amount = q)))
        ((List.insertionSort sortLE items).filter (fun x => decide (x.amount = q))) := by
      have h3 := h1.filter (fun x => decide (x.amount = q))
      rwa [List.filter_filter, show (fun x : DrugItem =>
        decide (x.amount = q) && decide (x.amount = q))
          = (fun x : DrugItem => decide (x.amount = q)) from by
        funext x
        rw [Bool.and_self]] at h3
    have h4 : ((List.insertionSort sortLE items).filter
        (fun x => decide (x.amount = q))).length
          = (items.filter (fun x => decide (x.amount = q))).length :=
      ((List.perm_insertionSort sortLE items).filter _).length_eq
    exact (h2.eq_of_length h4.symm).symm

/-- Claim C6: for every non-empty input the first output item of
`analyzeABC` (the highest-amount item) is tier A — the tier is decided on the
cumulative share before the item, which is `0 < 80` — and the single item
`[100]` yields tier A with `percentOfTotal = 100` and
`cumulativePercent = 100`. -/
theorem c6_first_item_tier_A (items : List DrugItem) (hne : items ≠ []) :
    ((analyzeABC items).head?.map (fun x => x.abc)) = some ABCCategory.A
    ∧ (analyzeABC [mkItem 1 100 .V]).map
        (fun x => (x.percentOfTotal, x.cumulativePercent, x.abc))
        = [(.fin 100, .fin 100, .A)] := by
  constructor
  · have hs : List.insertionSort sortLE items ≠ [] := by
      intro h
      apply hne
      have := List.length_insertionSort sortLE items
      rw [h] at this
      exact List.length_eq_zero.1 this.symm
    obtain ⟨y, ys, hy⟩ := List.exists_cons_of_ne_nil hs
    rw [analyzeABC, hy]
    simp only [analyzeABCGo, List.head?_cons, Option.map_some]
    have : jslt (.fin 0) (.fin 80) = true := by
      simp [jslt]
    simp [this]
  · with_unfolding_all decide

/-- Witness for C6: the singleton input `[100]` is non-empty and its first
output item is tier A. -/
theorem c6_first_item_tier_A_witness :
    ([mkItem 1 100 .V] : List DrugItem) ≠ []
    ∧ ((analyzeABC [mkItem 1 100 .V]).head?.map (fun x => x.abc))
        = some ABCCategory.A :=
  ⟨by decide, (c6_first_item_tier_A [mkItem 1 100 .V] (by decide)).1⟩

/-- Claim C7: for every input, the three counts of `getABCSummary` sum to
the item count and the three amounts sum to the total amount (exactly, in the
idealized arithmetic); likewise for `getVENSummary`. -/
theorem c7_summary_totals (items : List AnalyzedItem) :
    ((getABCSummary items).map (fun r => r.count)).sum = items.length
    ∧ ((getABCSummary items).map (fun r => r.amount)).sum = anaTotal items
    ∧ ((getVENSummary items).map (fun r => r.count)).sum = items.length
    ∧ ((getVENSummary items).map (fun r => r.amount)).sum = anaTotal items := by
  have h1 := abc_partition_length items
  have h2 := abc_partition_amount items
  have h3 := ven_partition_length items
  have h4 := ven_partition_amount items
  refine ⟨?_, ?_, ?_, ?_⟩ <;>
    simp only [getABCSummary, getVENSummary, List.map_cons, List.map_nil,
      List.sum_cons, List.sum_nil] <;>
    first
      | omega
      | linarith

/-- Claim C5 (amended): in `getVENDistributionByABC`, for every tier with
at least one item the three `percentCount` cells sum to `100`; the three
`percentAmount` cells sum to `100` when the tier's group amount is positive
(the guard tests `groupAmount > 0`, so a non-empty tier whose amounts sum to
`0` gets `percentAmount = 0` in all cells, see the counterexample); an empty
tier yields all-zero cells. -/
theorem c5_distribution_row_normalization (items : List AnalyzedItem)
    (t : ABCCategory) :
    (abcFilter items t ≠ [] →
      jsSum [(getVENDistributionByABC items t .V).percentCount,
             (getVENDistributionByABC items t .E).percentCount,
             (getVENDistributionByABC items t .N).percentCount] = .fin 100)
    ∧ (0 < anaTotal (abcFilter items t) →
      jsSum [(getVENDistributionByABC items t .V).percentAmount,
             (getVENDistributionByABC items t .E).percentAmount,
             (getVENDistributionByABC items t .N).percentAmount] = .fin 100)
    ∧ (abcFilter items t = [] →
      ∀ v, (getVENDistributionByABC items t v).percentCount = .fin 0
        ∧ (getVENDistributionByABC items t v).percentAmount = .fin 0
        ∧ (getVENDistributionByABC items t v).count = 0
        ∧ (getVENDistributionByABC items t v).amount = 0) := by
  refine ⟨?_, ?_, ?_⟩
  · intro hne
    have hn : 0 < (abcFilter items t).length := List.length_pos.2 hne
    have hnq : ((abcFilter items t).length : ℚ) ≠ 0 := by
      exact_mod_cast Nat.pos_iff_ne_zero.1 hn
    have hpart := ven_partition_length (abcFilter items t)
    simp only [getVENDistributionByABC, if_pos hn, jsdivFin, if_neg hnq, jsmul100,
      jsSum, List.foldl_cons, List.foldl_nil, jsadd]
    congr 1
    have hcast : ((venFilter (abcFilter items t) .V).length : ℚ)
        + ((venFilter (abcFilter items t) .E).length : ℚ)
        + ((venFilter (abcFilter items t) .N).length : ℚ)
        = ((abcFilter items t).length : ℚ) := by
      exact_mod_cast hpart
    field_simp
    linarith
  · intro hpos
    have hq : anaTotal (abcFilter items t) ≠ 0 := ne_of_gt hpos
    have hpart := ven_partition_amount (abcFilter items t)
    simp only [getVENDistributionByABC, if_pos hpos, jsdivFin, if_neg hq, jsmul100,
      jsSum, List.foldl_cons, List.foldl_nil, jsadd]
    congr 1
    field_simp
    linarith
  · intro hnil v
    have h0 : (abcFilter items t).length = 0 := by rw [hnil]; rfl
    refine ⟨?_, ?_, ?_, ?_⟩ <;>
      simp [getVENDistributionByABC, hnil, venFilter, anaTotal_nil]

/-- Witness for C5: tier A holding amounts `[60, 40]` has both percentage
rows summing to `100`. -/
theorem c5_distribution_row_normalization_witness :
    abcFilter [mkAna 1 60 .A .V, mkAna 2 40 .A .E] .A ≠ []
    ∧ (0:ℚ) < anaTotal (abcFilter [mkAna 1 60 .A .V, mkAna 2 40 .A .E] .A)
    ∧ jsSum [(getVENDistributionByABC [mkAna 1 60 .A .V, mkAna 2 40 .A .E] .A .V).percentCount,
             (getVENDistributionByABC [mkAna 1 60 .A .V, mkAna 2 40 .A .E] .A .E).percentCount,
             (getVENDistributionByABC [mkAna 1 60 .A .V, mkAna 2 40 .A .E] .A .N).percentCount] = .fin 100
    ∧ jsSum [(getVENDistributionByABC [mkAna 1 60 .A .V, mkAna 2 40 .A .E] .A .V).percentAmount,
             (getVENDistributionByABC [mkAna 1 60 .A .V, mkAna 2 40 .A .E] .A .E).percentAmount,
             (getVENDistributionByABC [mkAna 1 60 .A .V, mkAna 2 40 .A .E] .A .N).percentAmount] = .fin 100 :=
  ⟨by with_unfolding_all decide, by with_unfolding_all decide,
   (c5_distribution_row_normalization [mkAna 1 60 .A .V, mkAna 2 40 .A .E] .A).1
     (by with_unfolding_all decide),
   (c5_distribution_row_normalization [mkAna 1 60 .A .V, mkAna 2 40 .A .E] .A).2.1
     (by with_unfolding_all decide)⟩

/-- Counterexample to C5 as stated: a tier containing one item of amount
`0` is non-empty, yet its three `percentAmount` cells sum to `0`, not
`100`. -/
theorem c5_counterexample_zero_amount_tier :
    abcFilter [mkAna 1 0 .A .V] .A ≠ []
    ∧ jsSum [(getVENDistributionByABC [mkAna 1 0 .A .V] .A .V).percentAmount,
             (getVENDistributionByABC [mkAna 1 0 .A .V] .A .E).percentAmount,
             (getVENDistributionByABC [mkAna 1 0 .A .V] .A .N).percentAmount] = .fin 0
    ∧ JsNum.fin 0 ≠ .fin 100 := by
  refine ⟨?_, ?_, ?_⟩ <;> with_unfolding_all decide

/-- Claim C10: in `getVENDistributionByABC`, a tier with at least one item
but group amount `0` yields `percentAmount = 0` in all three cells while
`percentCount` is still `cellCount / groupCount * 100` — the `percentAmount`
guard tests `groupAmount`, not `groupCount`. -/
theorem c10_zero_amount_group_guard (items : List AnalyzedItem) (t : ABCCategory)
    (h1 : abcFilter items t ≠ []) (h2 : anaTotal (abcFilter items t) = 0) :
    ∀ v, (getVENDistributionByABC items t v).percentAmount = .fin 0
      ∧ (getVENDistributionByABC items t v).percentCount =
          .fin (((venFilter (abcFilter items t) v).length : ℚ)
            / ((abcFilter items t).length : ℚ) * 100) := by
  intro v
  have hn : 0 < (abcFilter items t).length := List.length_pos.2 h1
  have hnq : ((abcFilter items t).length : ℚ) ≠ 0 := by
    exact_mod_cast Nat.pos_iff_ne_zero.1 hn
  have hno : ¬ (0 < anaTotal (abcFilter items t)) := by
    rw [h2]
    exact lt_irrefl 0
  constructor
  · simp [getVENDistributionByABC, if_neg hno]
  · simp [getVENDistributionByABC, if_pos hn, jsdivFin, if_neg hnq, jsmul100, h1]

/-- Witness for C10: tier B holding a single zero-amount item has
`percentAmount = 0` and `percentCount = 1/1*100` in its V cell. -/
theorem c10_zero_amount_group_guard_witness :
    abcFilter [mkAna 1 0 .B .V] .B ≠ []
    ∧ anaTotal (abcFilter [mkAna 1 0 .B .V] .B) = 0
    ∧ ((getVENDistributionByABC [mkAna 1 0 .B .V] .B .V).percentAmount = .fin 0
      ∧ (getVENDistributionByABC [mkAna 1 0 .B .V] .B .V).percentCount =
          .fin (((venFilter (abcFilter [mkAna 1 0 .B .V] .B) .V).length : ℚ)
            / ((abcFilter [mkAna 1 0 .B .V] .B).length : ℚ) * 100)) :=
  ⟨by with_unfolding_all decide, by with_unfolding_all decide,
   c10_zero_amount_group_guard [mkAna 1 0 .B .V] .B
     (by with_unfolding_all decide) (by with_unfolding_all decide) .V⟩

lemma jsmul100_jsdivFin_zero (a : ℚ) :
    isFinite (jsmul100 (jsdivFin a 0)) = false := by
  rw [jsdivFin, if_pos rfl]
  split_ifs <;> simp [jsmul100, isFinite]

lemma go_percent_nonfinite (cum : JsNum) (l : List DrugItem) (x : AnalyzedItem)
    (hx : x ∈ analyzeABCGo 0 cum l) : isFinite x.percentOfTotal = false := by
  induction l generalizing cum with
  | nil => cases hx
  | cons y ys ih =>
    rw [analyzeABCGo] at hx
    rcases List.mem_cons.1 hx with h | h
    · rw [h]
      exact jsmul100_jsdivFin_zero y.amount
    · exact ih _ h

/-- Claim C2 (amended): the zero-denominator rule holds only in
`getVENDistributionByABC` (empty tier group gives percentages `0`; zero group
amount gives `percentAmount = 0`).  In `analyzeABC`, `getABCSummary`,
`getVENSummary` and `getABCVENMatrix` a zero denominator instead produces a
non-finite value (`NaN` or `±Infinity`), not `0`. -/
theorem c2_zero_denominator_behavior (ds : List DrugItem)
    (l : List AnalyzedItem) :
    (drugTotal ds = 0 → ∀ x ∈ analyzeABC ds, isFinite x.percentOfTotal = false)
    ∧ (l = [] → ∀ r ∈ getABCSummary l, isFinite r.percentCount = false)
    ∧ (anaTotal l = 0 → ∀ r ∈ getABCSummary l, isFinite r.percentAmount = false)
    ∧ (l = [] → ∀ r ∈ getVENSummary l, isFinite r.percentCount = false)
    ∧ (anaTotal l = 0 → ∀ r ∈ getVENSummary l, isFinite r.percentAmount = false)
    ∧ (l = [] → ∀ a v, isFinite (getABCVENMatrix l a v).percentCount = false)
    ∧ (anaTotal l = 0 →
        ∀ a v, isFinite (getABCVENMatrix l a v).percentAmount = false)
    ∧ (∀ a v, abcFilter l a = [] →
        (getVENDistributionByABC l a v).percentCount = .fin 0
        ∧ (getVENDistributionByABC l a v).percentAmount = .fin 0)
    ∧ (∀ a v, anaTotal (abcFilter l a) = 0 →
        (getVENDistributionByABC l a v).percentAmount = .fin 0) := by
  refine ⟨?_, ?_, ?_, ?_, ?_, ?_, ?_, ?_, ?_⟩
  · intro h0 x hx
    rw [analyzeABC] at hx
    rw [drugTotal_insertionSort, h0] at hx
    exact go_percent_nonfinite _ _ _ hx
  · intro h0 r hr
    subst h0
    rcases List.mem_map.1 hr with ⟨c, _, rfl⟩
    simpa using jsmul100_jsdivFin_zero _
  · intro h0 r hr
    rcases List.mem_map.1 hr with ⟨c, _, rfl⟩
    simp only [h0]
    simpa using jsmul100_jsdivFin_zero _
  · intro h0 r hr
    subst h0
    rcases List.mem_map.1 hr with ⟨v, _, rfl⟩
    simpa using jsmul100_jsdivFin_zero _
  · intro h0 r hr
    rcases List.mem_map.1 hr with ⟨v, _, rfl⟩
    simp only [h0]
    simpa using jsmul100_jsdivFin_zero _
  · intro h0 a v
    subst h0
    simpa [getABCVENMatrix] using jsmul100_jsdivFin_zero _
  · intro h0 a v
    simp only [getABCVENMatrix, h0]
    simpa using jsmul100_jsdivFin_zero _
  · intro a v h0
    have h1 : ¬ (0 < (abcFilter l a).length) := by
      rw [h0]
      simp
    have h2 : ¬ (0 < anaTotal (abcFilter l a)) := by
      rw [h0, anaTotal_nil]
      exact lt_irrefl 0
    exact ⟨by simp [getVENDistributionByABC, if_neg h1],
           by simp [getVENDistributionByABC, if_neg h2]⟩
  · intro a v h0
    have h2 : ¬ (0 < anaTotal (abcFilter l a)) := by
      rw [h0]
      exact lt_irrefl 0
    simp [getVENDistributionByABC, if_neg h2]

/-- Counterexample to C2 as stated: `getABCSummary` of the empty list has
`totalCount = 0`, and every `percentCount` is `NaN` (JavaScript `0/0`), not
`0` as the claim requires. -/
theorem c2_counterexample_empty_summary :
    (getABCSummary ([] : List AnalyzedItem)).map (fun r => r.percentCount)
        = [.nan, .nan, .nan]
    ∧ JsNum.nan ≠ .fin 0 := by
  refine ⟨?_, ?_⟩ <;> with_unfolding_all decide

/-- Witness for C2: a zero-total input to `analyzeABC`, the empty list fed
to `getABCVENMatrix` (non-finite percentage), and the empty tier-A group in
`getVENDistributionByABC` (percentage `0`). -/
theorem c2_zero_denominator_behavior_witness :
    drugTotal [mkItem 1 0 .V] = 0
    ∧ isFinite (getABCVENMatrix ([] : List AnalyzedItem) .A .V).percentCount = false
    ∧ (getVENDistributionByABC ([] : List AnalyzedItem) .A .V).percentCount = .fin 0 :=
  ⟨by with_unfolding_all decide,
   (c2_zero_denominator_behavior [mkItem 1 0 .V] []).2.2.2.2.2.1 rfl .A .V,
   ((c2_zero_denominator_behavior [mkItem 1 0 .V] []).2.2.2.2.2.2.2.1 .A .V rfl).1⟩

/-- Claim C8 (amended): the counts of the 9 cells of `getABCVENMatrix` sum
to the item count, and each cell's percentages are relative to the grand
total count/amount; the 9 `percentAmount` values sum to `100` provided the
grand total amount is nonzero (for a zero total — e.g. the empty input — the
percentages are non-finite and their sum is `NaN`, see the
counterexample). -/
theorem c8_matrix_additivity (items : List AnalyzedItem) :
    ((allCells.map (fun p => (getABCVENMatrix items p.1 p.2).count)).sum
        = items.length)
    ∧ (∀ a v, (getABCVENMatrix items a v).percentCount
        = jsmul100 (jsdivFin (((cellFilter items a v).length : ℚ))
            ((items.length : ℚ)))
      ∧ (getABCVENMatrix items a v).percentAmount
        = jsmul100 (jsdivFin (anaTotal (cellFilter items a v)) (anaTotal items)))
    ∧ (anaTotal items ≠ 0 →
        jsSum (allCells.map (fun p => (getABCVENMatrix items p.1 p.2).percentAmount))
          = .fin 100) := by
  refine ⟨?_, fun a v => ⟨rfl, rfl⟩, ?_⟩
  · have hA := ven_partition_length (abcFilter items .A)
    have hB := ven_partition_length (abcFilter items .B)
    have hC := ven_partition_length (abcFilter items .C)
    have habc := abc_partition_length items
    simp only [allCells, List.map_cons, List.map_nil, List.sum_cons, List.sum_nil,
      getABCVENMatrix, cellFilter_eq]
    omega
  · intro hT
    have hA := ven_partition_amount (abcFilter items .A)
    have hB := ven_partition_amount (abcFilter items .B)
    have hC := ven_partition_amount (abcFilter items .C)
    have habc := abc_partition_amount items
    simp only [allCells, List.map_cons, List.map_nil, getABCVENMatrix,
      cellFilter_eq, jsdivFin, if_neg hT, jsmul100, jsSum, List.foldl_cons,
      List.foldl_nil, jsadd]
    congr 1
    field_simp
    linarith

/-- Witness for C8: a single item of amount `100` has nonzero grand total
and its matrix `percentAmount` cells sum to `100`. -/
theorem c8_matrix_additivity_witness :
    anaTotal [mkAna 1 100 .A .V] ≠ 0
    ∧ jsSum (allCells.map
        (fun p => (getABCVENMatrix [mkAna 1 100 .A .V] p.1 p.2).percentAmount))
      = .fin 100 :=
  ⟨by with_unfolding_all decide,
   (c8_matrix_additivity [mkAna 1 100 .A .V]).2.2 (by with_unfolding_all decide)⟩

/-- Counterexample to C8 as stated: on the empty input the 9 matrix
`percentAmount` values are all `NaN` and their sum is `NaN`, not `100`. -/
theorem c8_counterexample_empty :
    jsSum (allCells.map
        (fun p => (getABCVENMatrix ([] : List AnalyzedItem) p.1 p.2).percentAmount))
      = .nan
    ∧ JsNum.nan ≠ .fin 100 := by
  refine ⟨?_, ?_⟩ <;> with_unfolding_all decide

/-- Claim C9 (amended): `getABCSummary` always returns exactly the three
categories in order A, B, C and `getVENSummary` exactly V, E, N;
`getABCVENMatrix` always carries all 9 cells, zero-initialized when empty;
and for a non-empty batch with nonzero total amount lacking any tier-B item,
the tier-B entry is `count 0, amount 0, percentCount 0, percentAmount 0`.
(Non-emptiness and nonzero total are forced: for the empty batch the tier-B
percentages are `NaN`, see the counterexample.) -/
theorem c9_fixed_structure (items : List AnalyzedItem) :
    ((getABCSummary items).map (fun r => r.category) = [.A, .B, .C])
    ∧ ((getVENSummary items).map (fun r => r.category) = [.V, .E, .N])
    ∧ (items ≠ [] → anaTotal items ≠ 0 → (∀ x ∈ items, x.abc ≠ .B) →
        (getABCSummary items)[1]? = some
          { category := .B, count := 0, amount := 0,
            percentCount := .fin 0, percentAmount := .fin 0 })
    ∧ (∀ a v, cellFilter items a v = [] →
        (getABCVENMatrix items a v).count = 0
        ∧ (getABCVENMatrix items a v).amount = 0) := by
  refine ⟨rfl, rfl, ?_, ?_⟩
  · intro hne hT hnoB
    have hBnil : abcFilter items .B = [] := by
      rw [abcFilter, List.filter_eq_nil_iff]
      intro x hx
      simpa using hnoB x hx
    have hlen : (items.length : ℚ) ≠ 0 := by
      have : items.length ≠ 0 := by
        intro h
        exact hne (List.length_eq_zero.1 h)
      exact_mod_cast this
    simp only [getABCSummary, List.map_cons, List.map_nil]
    simp [hBnil, anaTotal_nil, jsdivFin, hlen, hT, jsmul100]
  · intro a v hnil
    constructor
    · simp [getABCVENMatrix, hnil]
    · simp [getABCVENMatrix, hnil, anaTotal_nil]

/-- Witness for C9: a two-item batch with tiers A and C only; the tier-B
summary entry is present with all-zero statistics. -/
theorem c9_fixed_structure_witness :
    ([mkAna 1 50 .A .V, mkAna 2 50 .C .N] : List AnalyzedItem) ≠ []
    ∧ anaTotal [mkAna 1 50 .A .V, mkAna 2 50 .C .N] ≠ 0
    ∧ (∀ x ∈ ([mkAna 1 50 .A .V, mkAna 2 50 .C .N] : List AnalyzedItem), x.abc ≠ .B)
    ∧ (getABCSummary [mkAna 1 50 .A .V, mkAna 2 50 .C .N])[1]? = some
        { category := .B, count := 0, amount := 0,
          percentCount := .fin 0, percentAmount := .fin 0 } :=
  ⟨by with_unfolding_all decide, by with_unfolding_all decide,
   by with_unfolding_all decide,
   (c9_fixed_structure [mkAna 1 50 .A .V, mkAna 2 50 .C .N]).2.2.1
     (by with_unfolding_all decide) (by with_unfolding_all decide)
     (by with_unfolding_all decide)⟩

/-- Counterexample to C9 as stated: the empty batch lacks tier-B items,
yet its tier-B summary entry has `percentCount = NaN`, not `0`. -/
theorem c9_counterexample_empty_batch :
    (∀ x ∈ ([] : List AnalyzedItem), x.abc ≠ .B)
    ∧ ((getABCSummary ([] : List AnalyzedItem))[1]?.map (fun r => r.percentCount)
        = some .nan)
    ∧ JsNum.nan ≠ .fin 0 := by
  refine ⟨?_, ?_, ?_⟩
  · intro x hx
    cases hx
  · with_unfolding_all decide
  · with_unfolding_all decide

end ABCVEN
